import Mathlib

/-
Verification development for the RPG-Stream-Overlay character sheet service
(src/src/sheetservice.go).  The Go program is shallowly embedded: Go maps are
modelled as association lists (first binding wins for lookup, assignment
replaces the first binding), `time.Time` as `Nat` (seconds), the Google Sheets
`BatchGet` call as an external oracle value of type `Except String BatchResponse`
supplied to the refresh function, `log.Fatalf` (which exits the process) and a
runtime index-out-of-range panic as distinguished outcomes of that function,
and the `go` statement as an explicit `spawnRefresh` effect recorded by the
lookup path.  Field and function names mirror the Go source.
-/

set_option autoImplicit false

namespace SheetService

/-- Go struct `AttributeRow` (sheetservice.go lines 21-24): a configured field,
with the display name and the spreadsheet sub-range it is fetched from. -/
structure AttributeRow where
  Name : String
  Range : String
deriving DecidableEq, Repr

/-- Go struct `ConfigEntry` (lines 26-30): one configured character. -/
structure ConfigEntry where
  CharacterKey : String
  SheetId : String
  Attributes : List AttributeRow
deriving DecidableEq, Repr

/-- One `ValueRange` of the Sheets batch response: `Values` is the fetched grid
of cells.  The Go cells are `interface\x7b\x7d` values rendered by
`fmt.Sprintf`; the model normalises them to `String` up front. -/
structure ValueRange where
  Values : List (List String)
deriving DecidableEq, Repr

/-- The Sheets `BatchGetValuesResponse`: one `ValueRange` per requested range,
aligned by position (interface contract of the upstream collaborator). -/
structure BatchResponse where
  ValueRanges : List ValueRange
deriving DecidableEq, Repr

/-- Go struct `CacheEntry` (lines 57-61).  `Attributes` is `*map[string]string`
in Go; the model stores the pointed-to map as an association list.
`Expires` is the expiry instant, `UpdatingFlag` the refresh-in-flight flag. -/
structure CacheEntry where
  Attributes : List (String × String)
  Expires : Nat
  UpdatingFlag : Bool
deriving DecidableEq, Repr

/-- Go struct `CharacterSheetServiceApp` (lines 32-41): the key registry
`Characters`, the precomputed `ValidUrls` list, and the mutable `Cache`.
The `GoogleSheetService` handle is replaced by the fetch oracle passed to
`FetchCharacterAttributesFromSheetsApi`. -/
structure CharacterSheetServiceApp where
  Characters : List (String × ConfigEntry)
  ValidUrls : List String
  Cache : List (String × CacheEntry)
deriving DecidableEq, Repr

/-- Lookup in a Go map modelled as an association list: the first binding for
the key wins. -/
def alookup {α : Type} : List (String × α) → String → Option α
  | [], _ => none
  | p :: rest, k => if p.1 = k then some p.2 else alookup rest k

/-- Assignment `m[k] = v` in a Go map modelled as an association list: replace
the first binding for `k`, or append a fresh binding. -/
def aset {α : Type} : List (String × α) → String → α → List (String × α)
  | [], k, v => [(k, v)]
  | p :: rest, k, v => if p.1 = k then (k, v) :: rest else p :: aset rest k v

/-- Go function `LoadCharacterSheetConfig` (lines 63-85), restricted to its
pure content: fold the parsed config list into the `Characters` map, later
entries overwriting earlier ones with the same `CharacterKey`.  (File reading
and JSON parsing are external collaborators; a failure there is fatal before
the core ever runs.) -/
def LoadCharacterSheetConfig (config : List ConfigEntry) : List (String × ConfigEntry) :=
  config.foldl (fun m e => aset m e.CharacterKey e) []

/-- Go method `UpdateCachedEntry` (lines 163-169): install a freshly built
entry for `charKey` with a 30-second TTL and a cleared `UpdatingFlag`, as a
single assignment of the map slot. -/
def UpdateCachedEntry (app : CharacterSheetServiceApp) (charKey : String)
    (charAttributes : List (String × String)) (now : Nat) : CharacterSheetServiceApp :=
  { app with Cache := aset app.Cache charKey ⟨charAttributes, now + 30, false⟩ }

/-- The mapping loop of `FetchCharacterAttributesFromSheetsApi`
(lines 186-195), with the panics made explicit as `none`:
`batchResp.ValueRanges[i]` panics when the response has fewer ranges than the
config has attributes, and `valueRange.Values[0][0]` panics when the first row
of a non-empty grid is itself empty.  An empty `Values` grid is logged and the
field is skipped; otherwise the first cell is stored under `attr.Name`. -/
def mapRangesToNames : List AttributeRow → List ValueRange → List (String × String) →
    Option (List (String × String))
  | [], _, charMap => some charMap
  | _ :: _, [], _ => none
  | attr :: attrs, vr :: vrs, charMap =>
    match vr.Values with
    | [] => mapRangesToNames attrs vrs charMap
    | [] :: _ => none
    | (c :: _) :: _ => mapRangesToNames attrs vrs (aset charMap attr.Name c)

/-- The full mapping step over a batch response, starting from the empty
`charMap` built at line 187. -/
def buildCharMap (attrs : List AttributeRow) (batchResp : BatchResponse) :
    Option (List (String × String)) :=
  mapRangesToNames attrs batchResp.ValueRanges []

/-- Outcome of `FetchCharacterAttributesFromSheetsApi`: `fatal` models
`log.Fatalf` at line 183 (the whole process exits, no cache mutation),
`panicked` models an index-out-of-range panic in the mapping loop, and `done`
carries the app state after `UpdateCachedEntry`. -/
inductive RefreshOutcome where
  | fatal (msg : String)
  | panicked
  | done (app : CharacterSheetServiceApp)
deriving DecidableEq, Repr

/-- Go method `FetchCharacterAttributesFromSheetsApi` (lines 171-199).  The
network call `BatchGet(...).Do()` is replaced by its result `fetchResult`; on
error the Go code calls `log.Fatalf`, otherwise the response is mapped to a
name-to-value map and installed via `UpdateCachedEntry`.  A missing config key
yields Go's zero value `ConfigEntry` with an empty attribute list. -/
def FetchCharacterAttributesFromSheetsApi (app : CharacterSheetServiceApp)
    (charKey : String) (fetchResult : Except String BatchResponse) (now : Nat) :
    RefreshOutcome :=
  let charConfig := (alookup app.Characters charKey).getD ⟨"", "", []⟩
  match fetchResult with
  | Except.error msg => RefreshOutcome.fatal msg
  | Except.ok batchResp =>
    match buildCharMap charConfig.Attributes batchResp with
    | none => RefreshOutcome.panicked
    | some charMap => RefreshOutcome.done (UpdateCachedEntry app charKey charMap now)

/-- Observable side effects of the serving path: `spawnRefresh` is the
`go FetchCharacterAttributesFromSheetsApi(...)` statement at line 216 (a
detached background task), `fetchUpstream` is the actual network call at
line 181 performed inside that task. -/
inductive Effect where
  | spawnRefresh (key : String)
  | fetchUpstream (key : String)
deriving DecidableEq, Repr

/-- Effects performed by the body of `FetchCharacterAttributesFromSheetsApi`
itself: it always issues the upstream network call (line 181). -/
def fetchTaskEffects (charKey : String) : List Effect :=
  [Effect.fetchUpstream charKey]

/-- Result of `LookupCharacter`: the returned `(*map[string]string, bool)`
pair, the app state after the call (the Go code mutates the entry through its
pointer), and the effects emitted on the caller path. -/
structure LookupResult where
  attrs : Option (List (String × String))
  found : Bool
  app : CharacterSheetServiceApp
  effects : List Effect
deriving DecidableEq, Repr

/-- Go method `LookupCharacter` (lines 201-220): miss on the cache map returns
`(nil, false)`; on a hit, when `entry.UpdatingFlag == false` and
`now.After(entry.Expires)` (strictly later), the flag is set, the entry stored
back, and a background refresh spawned; in every hit case the cached
`entry.Attributes` pointer is returned. -/
def LookupCharacter (app : CharacterSheetServiceApp) (charKey : String) (now : Nat) :
    LookupResult :=
  match alookup app.Cache charKey with
  | none => ⟨none, false, app, []⟩
  | some entry =>
    if entry.UpdatingFlag = false ∧ entry.Expires < now then
      ⟨some entry.Attributes, true,
        { app with Cache := aset app.Cache charKey { entry with UpdatingFlag := true } },
        [Effect.spawnRefresh charKey]⟩
    else
      ⟨some entry.Attributes, true, app, []⟩

/-- Go `strings.Trim(requestPath, "/")` at line 237: strip leading and
trailing slash characters from the request path. -/
def trimSlashes (s : String) : String :=
  String.mk (((s.toList.dropWhile (fun c => c = '/')).reverse.dropWhile
    (fun c => c = '/')).reverse)

/-- The observable content of the JSON payload written by
`WriteApiResponseJson` for one request: status code, the optional
`attributes` object, the optional `characterUrls` list, and the error
message.  Pretty-printing, headers and CORS are plumbing outside the core. -/
structure HttpResponse where
  StatusCode : Nat
  Attributes : Option (List (String × String))
  CharacterUrls : List String
  ErrorMessage : String
deriving DecidableEq, Repr

/-- Go method `HandleRequest` (lines 222-256): non-GET methods get a 405 with
the `ValidUrls` list; otherwise the trimmed path is the character key, a cache
miss gets a 404 with the `ValidUrls` list, and a hit gets a 200 with the
cached attributes. -/
def HandleRequest (app : CharacterSheetServiceApp) (method : String)
    (requestPath : String) (now : Nat) : HttpResponse × CharacterSheetServiceApp :=
  if method ≠ "GET" then
    (⟨405, none, app.ValidUrls, "Method not allowed; you must use GET for this web service."⟩,
      app)
  else
    let charKey := trimSlashes requestPath
    let r := LookupCharacter app charKey now
    if r.found = false then
      (⟨404, none, app.ValidUrls, "No character found; see list of valid character paths in the payload."⟩,
        r.app)
    else
      (⟨200, r.attrs, [], ""⟩, r.app)

/-- The `ValidUrls` list built by the startup loop at lines 124-127: one
relative link per key, in the order `range app.Characters` happens to yield
the keys.  The Go language specification leaves map iteration order
unspecified, so `order` is a parameter of the model. -/
def mkValidUrls (order : List String) : List String :=
  order.map (fun k => "/" ++ k)

/-- The cache-priming part of the startup loop at lines 128-130: fetch every
key once, in map-iteration order.  `log.Fatalf` or a panic during priming
kills the process, modelled as `none`. -/
def primeAll (app : CharacterSheetServiceApp) (order : List String)
    (oracle : String → Except String BatchResponse) (now : Nat) :
    Option CharacterSheetServiceApp :=
  match order with
  | [] => some app
  | k :: rest =>
    match FetchCharacterAttributesFromSheetsApi app k (oracle k) now with
    | RefreshOutcome.done app2 => primeAll app2 rest oracle now
    | _ => none

/-- Go function `NewCharacterSheetApp` (lines 114-134): build the app with the
loaded registry and an empty cache, record one `/key` URL per registry key and
prime the cache for it, both driven by the same map-iteration `order`. -/
def NewCharacterSheetApp (characters : List (String × ConfigEntry))
    (order : List String) (oracle : String → Except String BatchResponse) (now : Nat) :
    Option CharacterSheetServiceApp :=
  primeAll ⟨characters, mkValidUrls order, []⟩ order oracle now

/-
Interleaving model of the expiry block of `LookupCharacter` (lines 209-216)
for two concurrent goroutines serving the same key.  Each Go statement is one
atomic step: `check` is the read of `entry.UpdatingFlag` and of
`entry.Expires` in the condition at line 209, `set` is the body at
lines 210-216 (write the flag, store the entry back, spawn the refresh),
executed only when that goroutine's check succeeded.  The Go code has no lock
or compare-and-swap between the two statements (the struct comment at
lines 37-40 itself flags the shared map as not thread-safe).
-/

/-- Shared state of the two-goroutine race on one cache entry: the entry, the
branch decision each goroutine has computed (none before its check), and the
number of refresh goroutines spawned so far. -/
structure RaceState where
  entry : CacheEntry
  decided1 : Option Bool
  decided2 : Option Bool
  spawned : Nat
deriving DecidableEq, Repr

/-- One atomic step of one of the two racing goroutines. -/
inductive RaceStep where
  | check1
  | set1
  | check2
  | set2
deriving DecidableEq, Repr

/-- The condition of line 209, evaluated atomically against the current
entry. -/
def raceCheck (now : Nat) (e : CacheEntry) : Bool :=
  decide (e.UpdatingFlag = false ∧ e.Expires < now)

/-- Execute one step of the race.  A `set` step runs the if-body only when the
same goroutine's earlier `check` observed the condition to hold. -/
def raceStepFn (now : Nat) (s : RaceState) : RaceStep → RaceState
  | RaceStep.check1 => { s with decided1 := some (raceCheck now s.entry) }
  | RaceStep.check2 => { s with decided2 := some (raceCheck now s.entry) }
  | RaceStep.set1 =>
    if s.decided1 = some true then
      { s with entry := { s.entry with UpdatingFlag := true }, spawned := s.spawned + 1 }
    else s
  | RaceStep.set2 =>
    if s.decided2 = some true then
      { s with entry := { s.entry with UpdatingFlag := true }, spawned := s.spawned + 1 }
    else s

/-- Run a schedule (an interleaving of the two goroutines' steps). -/
def runRace (now : Nat) (s : RaceState) (sched : List RaceStep) : RaceState :=
  sched.foldl (raceStepFn now) s

/-- Initial race state: one cached snapshot that expired at time 0, no refresh
in flight, both goroutines before their check. -/
def raceInit : RaceState :=
  ⟨⟨[("hp", "42")], 0, false⟩, none, none, 0⟩

/-- A `ValueRange` is safe for the mapping loop when a non-empty grid has a
non-empty first row, so that `Values[0][0]` at line 193 does not panic. -/
def rowsOk (vr : ValueRange) : Bool :=
  match vr.Values with
  | [] => true
  | row :: _ => !row.isEmpty

/-- Precondition under which the mapping loop of
`FetchCharacterAttributesFromSheetsApi` is panic-free: the batch response has
at least one `ValueRange` per configured attribute, and every `ValueRange`
with a non-empty grid has a non-empty first row. -/
def respWellFormed (attrs : List AttributeRow) (batchResp : BatchResponse) : Bool :=
  decide (attrs.length ≤ batchResp.ValueRanges.length) && batchResp.ValueRanges.all rowsOk

/-- Concrete app state for exercising a failing background refresh: the key
`hero` is registered and holds a stale snapshot whose refresh is in flight. -/
def appC3 : CharacterSheetServiceApp :=
  ⟨[("hero", ⟨"hero", "sheet1", [⟨"hp", "A1"⟩]⟩)], ["/hero"],
    [("hero", ⟨[("hp", "42")], 10, true⟩)]⟩

/-- A two-character configuration sequence, in configuration-file order. -/
def configSeq : List ConfigEntry :=
  [⟨"a", "s1", [⟨"hp", "A1"⟩]⟩, ⟨"b", "s2", [⟨"hp", "A1"⟩]⟩]

/-- A fetch oracle that always returns a single one-cell range. -/
def oracleC6 : String → Except String BatchResponse :=
  fun _ => Except.ok ⟨[⟨[["1"]]⟩]⟩

/-- The app state `NewCharacterSheetApp` builds from `configSeq` when the map
iteration happens to yield the keys in the order `b`, `a`. -/
def appC6 : CharacterSheetServiceApp :=
  ⟨[("a", ⟨"a", "s1", [⟨"hp", "A1"⟩]⟩), ("b", ⟨"b", "s2", [⟨"hp", "A1"⟩]⟩)],
    ["/b", "/a"],
    [("b", ⟨[("hp", "1")], 30, false⟩), ("a", ⟨[("hp", "1")], 30, false⟩)]⟩

/-- Concrete app state with one cached, already-expired snapshot for `hero`
and no refresh in flight. -/
def appC2 : CharacterSheetServiceApp :=
  ⟨[], [], [("hero", ⟨[("hp", "42")], 10, false⟩)]⟩

/-- One-character registry used to exercise startup priming. -/
def charsC5 : List (String × ConfigEntry) :=
  [("a", ⟨"a", "s1", [⟨"hp", "A1"⟩]⟩)]

/-- Fetch oracle for the priming example: a single one-cell range. -/
def oracleC5 : String → Except String BatchResponse :=
  fun _ => Except.ok ⟨[⟨[["1"]]⟩]⟩

/-- The app state that priming `charsC5` at time 0 produces. -/
def appC5 : CharacterSheetServiceApp :=
  ⟨charsC5, ["/a"], [("a", ⟨[("hp", "1")], 30, false⟩)]⟩

/-- App state whose `ValidUrls` came from iteration order `b`, `a` but whose
cache holds an unrelated entry, for exercising the miss path. -/
def appC6W : CharacterSheetServiceApp :=
  ⟨[], ["/b", "/a"], [("other", ⟨[("x", "1")], 99, false⟩)]⟩

/-- Two-key registry matching the `b`, `a` iteration-order example. -/
def charsC6W : List (String × ConfigEntry) :=
  [("a", ⟨"a", "s1", []⟩), ("b", ⟨"b", "s2", []⟩)]

/-
Helper lemmas about the association-list operations and the refresh pipeline.
-/

theorem alookup_aset {α : Type} (m : List (String × α)) (k k2 : String) (v : α) :
    alookup (aset m k v) k2 = if k = k2 then some v else alookup m k2 := by
  induction m with
  | nil =>
    by_cases h : k = k2 <;> simp [aset, alookup, h]
  | cons p rest ih =>
    by_cases hp : p.1 = k
    · by_cases h : k = k2
      · simp [aset, alookup, hp, h]
      · have hp2 : ¬ p.1 = k2 := fun he => h (hp.symm.trans he)
        simp [aset, alookup, hp, h, hp2]
    · by_cases h2 : p.1 = k2
      · have hk : ¬ k = k2 := fun he => hp (h2.trans he.symm)
        have hk2 : ¬ k2 = k := fun he => hk he.symm
        simp [aset, alookup, hp, h2, hk, hk2]
      · simp [aset, alookup, hp, h2, ih]

theorem LookupCharacter_found_iff (app : CharacterSheetServiceApp) (charKey : String)
    (now : Nat) :
    (LookupCharacter app charKey now).found = true ↔ (alookup app.Cache charKey).isSome := by
  cases h : alookup app.Cache charKey with
  | none => simp [LookupCharacter, h]
  | some entry =>
    by_cases hcond : entry.UpdatingFlag = false ∧ entry.Expires < now <;>
      simp [LookupCharacter, h, hcond]

theorem mapRangesToNames_isSome (attrs : List AttributeRow) (vrs : List ValueRange)
    (charMap : List (String × String)) (hlen : attrs.length ≤ vrs.length)
    (hok : ∀ vr ∈ vrs, rowsOk vr = true) :
    (mapRangesToNames attrs vrs charMap).isSome := by
  induction attrs generalizing vrs charMap with
  | nil => simp [mapRangesToNames]
  | cons a as ih =>
    cases vrs with
    | nil => simp at hlen
    | cons vr vrs2 =>
      have hvrok : rowsOk vr = true := hok vr (by simp)
      have hok2 : ∀ v ∈ vrs2, rowsOk v = true := fun v hv => hok v (by simp [hv])
      have hlen2 : as.length ≤ vrs2.length := by simpa using hlen
      cases hv : vr.Values with
      | nil => simpa [mapRangesToNames, hv] using ih vrs2 charMap hlen2 hok2
      | cons row rest =>
        cases row with
        | nil => simp [rowsOk, hv] at hvrok
        | cons c cs =>
          simpa [mapRangesToNames, hv] using ih vrs2 (aset charMap a.Name c) hlen2 hok2

theorem mapRangesToNames_lookup_of_not_mem (attrs : List AttributeRow)
    (vrs : List ValueRange) (charMap m : List (String × String)) (k : String)
    (hk : k ∉ attrs.map AttributeRow.Name)
    (h : mapRangesToNames attrs vrs charMap = some m) :
    alookup m k = alookup charMap k := by
  induction attrs generalizing vrs charMap with
  | nil =>
    simp [mapRangesToNames] at h
    rw [h]
  | cons a as ih =>
    have hka : ¬ a.Name = k := by
      intro he
      exact hk (by simp [he])
    have hkas : k ∉ as.map AttributeRow.Name := by
      intro hmem
      exact hk (by simp [hmem])
    cases vrs with
    | nil => simp [mapRangesToNames] at h
    | cons vr vrs2 =>
      cases hv : vr.Values with
      | nil =>
        rw [mapRangesToNames, hv] at h
        exact ih vrs2 charMap hkas h
      | cons row rest =>
        cases row with
        | nil => rw [mapRangesToNames, hv] at h; cases h
        | cons c cs =>
          simp only [mapRangesToNames, hv] at h
          rw [ih vrs2 (aset charMap a.Name c) hkas h, alookup_aset]
          simp [hka]

theorem mapRangesToNames_keys_subset (attrs : List AttributeRow)
    (vrs : List ValueRange) (charMap m : List (String × String)) (k : String)
    (h : mapRangesToNames attrs vrs charMap = some m)
    (hsome : (alookup m k).isSome) :
    k ∈ attrs.map AttributeRow.Name ∨ (alookup charMap k).isSome := by
  induction attrs generalizing vrs charMap with
  | nil =>
    simp [mapRangesToNames] at h
    right
    rw [h]
    exact hsome
  | cons a as ih =>
    cases vrs with
    | nil => simp [mapRangesToNames] at h
    | cons vr vrs2 =>
      cases hv : vr.Values with
      | nil =>
        rw [mapRangesToNames, hv] at h
        rcases ih vrs2 charMap h with hmem | hacc
        · exact Or.inl (by simp at hmem ⊢; exact Or.inr hmem)
        · exact Or.inr hacc
      | cons row rest =>
        cases row with
        | nil => rw [mapRangesToNames, hv] at h; cases h
        | cons c cs =>
          simp only [mapRangesToNames, hv] at h
          rcases ih vrs2 (aset charMap a.Name c) h with hmem | hacc
          · exact Or.inl (by simp at hmem ⊢; exact Or.inr hmem)
          · rw [alookup_aset] at hacc
            by_cases hak : a.Name = k
            · exact Or.inl (by simp [hak])
            · simp [hak] at hacc
              exact Or.inr hacc

theorem mapRangesToNames_mem_iff (attrs : List AttributeRow) (vrs : List ValueRange)
    (charMap m : List (String × String))
    (hnd : (attrs.map AttributeRow.Name).Nodup)
    (h : mapRangesToNames attrs vrs charMap = some m) :
    ∀ p ∈ attrs.zip vrs,
      ((alookup m p.1.Name).isSome ↔
        (p.2.Values ≠ [] ∨ (alookup charMap p.1.Name).isSome)) := by
  induction attrs generalizing vrs charMap with
  | nil => simp
  | cons a as ih =>
    cases vrs with
    | nil => simp [mapRangesToNames] at h
    | cons vr vrs2 =>
      have hand : a.Name ∉ as.map AttributeRow.Name ∧ (as.map AttributeRow.Name).Nodup := by
        simpa using hnd
      intro p hp
      rw [List.zip_cons_cons] at hp
      cases hv : vr.Values with
      | nil =>
        rw [mapRangesToNames, hv] at h
        rcases List.mem_cons.mp hp with hph | hpt
        · subst hph
          rw [mapRangesToNames_lookup_of_not_mem as vrs2 charMap m a.Name hand.1 h]
          simp [hv]
        · exact ih vrs2 charMap hand.2 h p hpt
      | cons row rest =>
        cases row with
        | nil => rw [mapRangesToNames, hv] at h; cases h
        | cons c cs =>
          simp only [mapRangesToNames, hv] at h
          rcases List.mem_cons.mp hp with hph | hpt
          · subst hph
            rw [mapRangesToNames_lookup_of_not_mem as vrs2 (aset charMap a.Name c) m
              a.Name hand.1 h, alookup_aset]
            simp [hv]
          · have hne : ¬ a.Name = p.1.Name := by
              intro he
              have hp1 : p.1 ∈ as := (List.of_mem_zip hpt).1
              exact hand.1 (he ▸ List.mem_map_of_mem AttributeRow.Name hp1)
            rw [ih vrs2 (aset charMap a.Name c) hand.2 h p hpt, alookup_aset]
            simp [hne]

theorem fetch_done_shape (app app2 : CharacterSheetServiceApp) (charKey : String)
    (fetchResult : Except String BatchResponse) (now : Nat)
    (h : FetchCharacterAttributesFromSheetsApi app charKey fetchResult now =
      RefreshOutcome.done app2) :
    ∃ charMap, app2 = UpdateCachedEntry app charKey charMap now := by
  cases fetchResult with
  | error msg => simp [FetchCharacterAttributesFromSheetsApi] at h
  | ok batchResp =>
    cases hb : buildCharMap ((alookup app.Characters charKey).getD ⟨"", "", []⟩).Attributes
        batchResp with
    | none => simp [FetchCharacterAttributesFromSheetsApi, hb] at h
    | some charMap =>
      refine ⟨charMap, ?_⟩
      simp [FetchCharacterAttributesFromSheetsApi, hb] at h
      exact h.symm

theorem primeAll_spec (order : List String) (app app2 : CharacterSheetServiceApp)
    (oracle : String → Except String BatchResponse) (now : Nat)
    (h : primeAll app order oracle now = some app2) :
    app2.Characters = app.Characters ∧ app2.ValidUrls = app.ValidUrls ∧
    ∀ k, (alookup app2.Cache k).isSome ↔ (k ∈ order ∨ (alookup app.Cache k).isSome) := by
  induction order generalizing app with
  | nil =>
    simp [primeAll] at h
    subst h
    simp
  | cons k0 rest ih =>
    rw [primeAll] at h
    cases hf : FetchCharacterAttributesFromSheetsApi app k0 (oracle k0) now with
    | fatal msg => rw [hf] at h; cases h
    | panicked => rw [hf] at h; cases h
    | done appm =>
      rw [hf] at h
      obtain ⟨charMap, hm⟩ := fetch_done_shape app appm k0 (oracle k0) now hf
      subst hm
      obtain ⟨hch, hvu, hcache⟩ := ih (UpdateCachedEntry app k0 charMap now) h
      refine ⟨hch, hvu, ?_⟩
      intro k
      rw [hcache k]
      simp only [UpdateCachedEntry, alookup_aset, List.mem_cons]
      by_cases hk : k0 = k
      · subst hk
        simp
      · have hk2 : ¬ k = k0 := fun he => hk he.symm
        simp [hk, hk2]

/-
Claim theorems.
-/

/-- C1: the claim asserts the check of `UpdatingFlag` at line 209 and its
setting at line 210 are indivisible across concurrent `get` calls, so N racing
callers cause exactly one refresh.  The code has no lock or compare-and-swap,
so in the statement-level interleaving model the serialized schedule spawns
one refresh, but the schedule in which both goroutines run their line-209
check before either runs the line-210 body spawns two refreshes for the same
expiry event. -/
theorem race_two_concurrent_refreshes :
    raceCheck 1 raceInit.entry = true ∧
    (runRace 1 raceInit
      [RaceStep.check1, RaceStep.set1, RaceStep.check2, RaceStep.set2]).spawned = 1 ∧
    (runRace 1 raceInit
      [RaceStep.check1, RaceStep.check2, RaceStep.set1, RaceStep.set2]).spawned = 2 := by
  decide

/-- C2: a `get` for a key with a cached snapshot always returns that snapshot
immediately; a background refresh is spawned exactly when the entry is expired
and no refresh is in flight, in which case only the `UpdatingFlag` of the
entry changes; otherwise the state is untouched and nothing is spawned. -/
theorem lookup_serves_cached_snapshot (app : CharacterSheetServiceApp)
    (charKey : String) (now : Nat) (entry : CacheEntry)
    (hc : alookup app.Cache charKey = some entry) :
    (LookupCharacter app charKey now).found = true ∧
    (LookupCharacter app charKey now).attrs = some entry.Attributes ∧
    ((entry.UpdatingFlag = false ∧ entry.Expires < now) →
      (LookupCharacter app charKey now).effects = [Effect.spawnRefresh charKey] ∧
      (LookupCharacter app charKey now).app =
        { app with Cache := aset app.Cache charKey { entry with UpdatingFlag := true } }) ∧
    (¬ (entry.UpdatingFlag = false ∧ entry.Expires < now) →
      (LookupCharacter app charKey now).effects = [] ∧
      (LookupCharacter app charKey now).app = app) := by
  by_cases h : entry.UpdatingFlag = false ∧ entry.Expires < now <;>
    simp [LookupCharacter, hc, h]

/-- Witness for `lookup_serves_cached_snapshot`: the expired `hero` entry of
`appC2` is served stale while a refresh is spawned. -/
theorem lookup_serves_cached_snapshot_witness :
    alookup appC2.Cache "hero" = some ⟨[("hp", "42")], 10, false⟩ ∧
    (LookupCharacter appC2 "hero" 40).attrs = some [("hp", "42")] ∧
    (LookupCharacter appC2 "hero" 40).effects = [Effect.spawnRefresh "hero"] :=
  ⟨rfl, (lookup_serves_cached_snapshot appC2 "hero" 40 ⟨[("hp", "42")], 10, false⟩ rfl).2.1,
    ((lookup_serves_cached_snapshot appC2 "hero" 40 ⟨[("hp", "42")], 10, false⟩ rfl).2.2.1
      (by decide)).1⟩

/-- C3: the claim asserts an upstream fetch failure during a background
refresh is absorbed: `UpdatingFlag` cleared, snapshot and expiry untouched,
entry still servable.  The code instead calls `log.Fatalf` at line 183, which
terminates the whole process; the outcome is `fatal`, never a `done` state, so
the flag is never cleared and nothing remains servable. -/
theorem refresh_failure_kills_process :
    FetchCharacterAttributesFromSheetsApi appC3 "hero" (Except.error "boom") 99 =
      RefreshOutcome.fatal "boom" ∧
    (∀ app2, ¬ FetchCharacterAttributesFromSheetsApi appC3 "hero" (Except.error "boom") 99 =
      RefreshOutcome.done app2) ∧
    alookup appC3.Cache "hero" = some ⟨[("hp", "42")], 10, true⟩ := by
  refine ⟨rfl, ?_, rfl⟩
  intro app2 h
  rw [show FetchCharacterAttributesFromSheetsApi appC3 "hero" (Except.error "boom") 99 =
    RefreshOutcome.fatal "boom" from rfl] at h
  cases h

/-- C4: a successful refresh installs, as a single assignment of the map slot,
a fresh entry holding the fetched map, an expiry of `now` plus the 30-second
TTL, and a cleared `UpdatingFlag`; entries of other keys and the registry are
untouched. -/
theorem update_installs_fresh_entry (app : CharacterSheetServiceApp) (charKey : String)
    (charAttributes : List (String × String)) (now : Nat) :
    (UpdateCachedEntry app charKey charAttributes now).Cache =
      aset app.Cache charKey ⟨charAttributes, now + 30, false⟩ ∧
    alookup (UpdateCachedEntry app charKey charAttributes now).Cache charKey =
      some ⟨charAttributes, now + 30, false⟩ ∧
    (∀ k2, ¬ k2 = charKey →
      alookup (UpdateCachedEntry app charKey charAttributes now).Cache k2 =
        alookup app.Cache k2) ∧
    (UpdateCachedEntry app charKey charAttributes now).Characters = app.Characters ∧
    (UpdateCachedEntry app charKey charAttributes now).ValidUrls = app.ValidUrls := by
  refine ⟨rfl, ?_, ?_, rfl, rfl⟩
  · simp [UpdateCachedEntry, alookup_aset]
  · intro k2 hne
    have hne2 : ¬ charKey = k2 := fun he => hne he.symm
    simp [UpdateCachedEntry, alookup_aset, hne2]

/-- Witness for `update_installs_fresh_entry` at a concrete state and key. -/
theorem update_installs_fresh_entry_witness :
    ¬ ("x" : String) = "hero" ∧
    alookup (UpdateCachedEntry ⟨[], [], []⟩ "hero" [("hp", "7")] 5).Cache "x" =
      alookup (⟨[], [], []⟩ : CharacterSheetServiceApp).Cache "x" ∧
    alookup (UpdateCachedEntry ⟨[], [], []⟩ "hero" [("hp", "7")] 5).Cache "hero" =
      some ⟨[("hp", "7")], 35, false⟩ :=
  ⟨by decide,
    (update_installs_fresh_entry ⟨[], [], []⟩ "hero" [("hp", "7")] 5).2.2.1 "x" (by decide),
    (update_installs_fresh_entry ⟨[], [], []⟩ "hero" [("hp", "7")] 5).2.1⟩

/-- C5: after startup priming succeeds, every registered key has a cache
entry, and `get` reports not-found exactly for the keys absent from the key
registry, at any later time. -/
theorem primed_get_notfound_iff_unregistered
    (characters : List (String × ConfigEntry)) (order : List String)
    (oracle : String → Except String BatchResponse) (now : Nat)
    (app : CharacterSheetServiceApp)
    (horder : ∀ k, k ∈ order ↔ (alookup characters k).isSome)
    (happ : NewCharacterSheetApp characters order oracle now = some app) :
    app.Characters = characters ∧
    (∀ k, (alookup characters k).isSome → (alookup app.Cache k).isSome) ∧
    (∀ k now2, ((LookupCharacter app k now2).found = true ↔
      (alookup characters k).isSome)) := by
  obtain ⟨hch, hvu, hcache⟩ :=
    primeAll_spec order ⟨characters, mkValidUrls order, []⟩ app oracle now happ
  have hcc : ∀ k, (alookup app.Cache k).isSome ↔ (alookup characters k).isSome := by
    intro k
    rw [hcache k]
    simp [alookup]
    exact horder k
  exact ⟨hch, fun k h => (hcc k).mpr h,
    fun k now2 => (LookupCharacter_found_iff app k now2).trans (hcc k)⟩

/-- Witness for `primed_get_notfound_iff_unregistered`: priming the one-key
registry `charsC5` yields `appC5`; the registered key is found, the unknown
key `zzz` is not. -/
theorem primed_get_notfound_iff_unregistered_witness :
    (∀ k, k ∈ (["a"] : List String) ↔ (alookup charsC5 k).isSome) ∧
    NewCharacterSheetApp charsC5 ["a"] oracleC5 0 = some appC5 ∧
    ((LookupCharacter appC5 "a" 5).found = true ↔ (alookup charsC5 "a").isSome) ∧
    ((LookupCharacter appC5 "zzz" 5).found = true ↔ (alookup charsC5 "zzz").isSome) := by
  have horder : ∀ k, k ∈ (["a"] : List String) ↔ (alookup charsC5 k).isSome := by
    intro k
    by_cases h : k = "a"
    · simp [charsC5, alookup, h]
    · have h2 : ¬ "a" = k := fun he => h he.symm
      simp [charsC5, alookup, h, h2]
  have happ : NewCharacterSheetApp charsC5 ["a"] oracleC5 0 = some appC5 := by decide
  exact ⟨horder, happ,
    (primed_get_notfound_iff_unregistered charsC5 ["a"] oracleC5 0 appC5 horder happ).2.2 "a" 5,
    (primed_get_notfound_iff_unregistered charsC5 ["a"] oracleC5 0 appC5 horder happ).2.2 "zzz" 5⟩

/-- C6 counterexample: the claim says the not-found response lists the valid
keys in the order of the registered key sequence.  The configuration sequence
`configSeq` registers `a` before `b`, yet the iteration order `b`, `a` is a
legal Go map iteration order (a permutation of the registry keys), and under
it the primed app answers the unknown key `zzz` with the urls `/b`, `/a`,
which is not the configured sequence order `/a`, `/b`. -/
theorem validurls_order_counterexample :
    (["b", "a"] : List String).Perm ((LoadCharacterSheetConfig configSeq).map Prod.fst) ∧
    NewCharacterSheetApp (LoadCharacterSheetConfig configSeq) ["b", "a"] oracleC6 0 =
      some appC6 ∧
    (HandleRequest appC6 "GET" "/zzz" 50).1.StatusCode = 404 ∧
    (HandleRequest appC6 "GET" "/zzz" 50).1.CharacterUrls = ["/b", "/a"] ∧
    mkValidUrls (configSeq.map ConfigEntry.CharacterKey) = ["/a", "/b"] ∧
    ¬ (["/b", "/a"] : List String) = ["/a", "/b"] := by
  exact ⟨by decide, by decide, by decide, by decide, by decide, by decide⟩

/-- C6 amended: for every unknown key and in every cache state, the not-found
response carries the full list of valid keys, one `/key` entry per registered
key, but in the map-iteration order the `ValidUrls` list was built with, which
is an unspecified permutation of the registered keys rather than the
configured sequence order. -/
theorem notfound_carries_all_registered_keys
    (app : CharacterSheetServiceApp) (characters : List (String × ConfigEntry))
    (order : List String) (requestPath : String) (now : Nat)
    (hvu : app.ValidUrls = mkValidUrls order)
    (horder : order.Perm (characters.map Prod.fst))
    (hmiss : (LookupCharacter app (trimSlashes requestPath) now).found = false) :
    (HandleRequest app "GET" requestPath now).1.StatusCode = 404 ∧
    (HandleRequest app "GET" requestPath now).1.CharacterUrls = mkValidUrls order ∧
    (mkValidUrls order).Perm (mkValidUrls (characters.map Prod.fst)) ∧
    (mkValidUrls order).length = characters.length := by
  refine ⟨?_, ?_, ?_, ?_⟩
  · simp [HandleRequest, hmiss]
  · simp [HandleRequest, hmiss, hvu]
  · exact horder.map (fun k => "/" ++ k)
  · rw [mkValidUrls, List.length_map, horder.length_eq, List.length_map]

/-- Witness for `notfound_carries_all_registered_keys`: the app `appC6W`,
whose cache holds only an unrelated entry, still answers the unknown key
`zzz` with the full two-element url list. -/
theorem notfound_carries_all_registered_keys_witness :
    appC6W.ValidUrls = mkValidUrls ["b", "a"] ∧
    (["b", "a"] : List String).Perm (charsC6W.map Prod.fst) ∧
    (LookupCharacter appC6W (trimSlashes "/zzz") 0).found = false ∧
    (HandleRequest appC6W "GET" "/zzz" 0).1.StatusCode = 404 ∧
    (HandleRequest appC6W "GET" "/zzz" 0).1.CharacterUrls = mkValidUrls ["b", "a"] ∧
    (mkValidUrls ["b", "a"]).length = charsC6W.length := by
  have h := notfound_carries_all_registered_keys appC6W charsC6W ["b", "a"] "/zzz" 0
    (by decide) (by decide) (by decide)
  exact ⟨by decide, by decide, by decide, h.1, h.2.1, h.2.2.2⟩

/-- C7: when the batch response is well-formed (one range per configured
field, no empty first rows), the mapping step succeeds without error; every
key of the produced map is a configured display name, and, when the display
names are distinct, a name is present in the map exactly when its
positionally-aligned range has data, so empty ranges are simply omitted. -/
theorem fetch_omits_empty_ranges (attrs : List AttributeRow) (batchResp : BatchResponse)
    (hwf : respWellFormed attrs batchResp = true) :
    ∃ charMap, buildCharMap attrs batchResp = some charMap ∧
      (∀ k, (alookup charMap k).isSome → k ∈ attrs.map AttributeRow.Name) ∧
      ((attrs.map AttributeRow.Name).Nodup →
        ∀ p ∈ attrs.zip batchResp.ValueRanges,
          ((alookup charMap p.1.Name).isSome ↔ ¬ p.2.Values = [])) := by
  rw [respWellFormed, Bool.and_eq_true, decide_eq_true_iff, List.all_eq_true] at hwf
  have hs := mapRangesToNames_isSome attrs batchResp.ValueRanges [] hwf.1 hwf.2
  obtain ⟨charMap, hm⟩ := Option.isSome_iff_exists.mp hs
  refine ⟨charMap, hm, ?_, ?_⟩
  · intro k hk
    rcases mapRangesToNames_keys_subset attrs batchResp.ValueRanges [] charMap k hm hk with
      hmem | habs
    · exact hmem
    · simp [alookup] at habs
  · intro hnd p hp
    have hiff := mapRangesToNames_mem_iff attrs batchResp.ValueRanges [] charMap hnd hm p hp
    simpa [alookup] using hiff

/-- Witness for `fetch_omits_empty_ranges`: two configured fields, a response
with data for the first and an empty grid for the second. -/
theorem fetch_omits_empty_ranges_witness :
    respWellFormed [⟨"hp", "A1"⟩, ⟨"mp", "B1"⟩] ⟨[⟨[["42"]]⟩, ⟨[]⟩]⟩ = true ∧
    (∃ charMap, buildCharMap [⟨"hp", "A1"⟩, ⟨"mp", "B1"⟩] ⟨[⟨[["42"]]⟩, ⟨[]⟩]⟩ =
        some charMap ∧
      (∀ k, (alookup charMap k).isSome →
        k ∈ ([⟨"hp", "A1"⟩, ⟨"mp", "B1"⟩] : List AttributeRow).map AttributeRow.Name) ∧
      ((([⟨"hp", "A1"⟩, ⟨"mp", "B1"⟩] : List AttributeRow).map AttributeRow.Name).Nodup →
        ∀ p ∈ ([⟨"hp", "A1"⟩, ⟨"mp", "B1"⟩] : List AttributeRow).zip
            (⟨[⟨[["42"]]⟩, ⟨[]⟩]⟩ : BatchResponse).ValueRanges,
          ((alookup charMap p.1.Name).isSome ↔ ¬ p.2.Values = []))) :=
  ⟨by decide, fetch_omits_empty_ranges [⟨"hp", "A1"⟩, ⟨"mp", "B1"⟩] ⟨[⟨[["42"]]⟩, ⟨[]⟩]⟩
    (by decide)⟩

/-- C8: two `get` calls for the same key within the TTL window of one snapshot
(neither observes expiry) return the identical attributes map, and the first
call leaves the state untouched. -/
theorem lookup_idempotent_within_ttl (app : CharacterSheetServiceApp) (charKey : String)
    (now1 now2 : Nat) (entry : CacheEntry)
    (hc : alookup app.Cache charKey = some entry)
    (h1 : ¬ entry.Expires < now1) (h2 : ¬ entry.Expires < now2) :
    (LookupCharacter app charKey now1).attrs = some entry.Attributes ∧
    (LookupCharacter app charKey now1).app = app ∧
    (LookupCharacter (LookupCharacter app charKey now1).app charKey now2).attrs =
      some entry.Attributes := by
  have hcond1 : ¬ (entry.UpdatingFlag = false ∧ entry.Expires < now1) := fun h => h1 h.2
  have hcond2 : ¬ (entry.UpdatingFlag = false ∧ entry.Expires < now2) := fun h => h2 h.2
  simp [LookupCharacter, hc, hcond1, hcond2]

/-- Witness for `lookup_idempotent_within_ttl`: two reads of an unexpired
entry at times 5 and 20 both yield the cached map. -/
theorem lookup_idempotent_within_ttl_witness :
    alookup (⟨[], [], [("hero", ⟨[("hp", "9")], 100, false⟩)]⟩ :
      CharacterSheetServiceApp).Cache "hero" = some ⟨[("hp", "9")], 100, false⟩ ∧
    ¬ (100 : Nat) < 5 ∧ ¬ (100 : Nat) < 20 ∧
    (LookupCharacter (LookupCharacter ⟨[], [], [("hero", ⟨[("hp", "9")], 100, false⟩)]⟩
      "hero" 5).app "hero" 20).attrs = some [("hp", "9")] :=
  ⟨rfl, by decide, by decide,
    (lookup_idempotent_within_ttl ⟨[], [], [("hero", ⟨[("hp", "9")], 100, false⟩)]⟩
      "hero" 5 20 ⟨[("hp", "9")], 100, false⟩ rfl (by decide) (by decide)).2.2⟩

/-- C9: the caller path of `get` performs no upstream fetch in any state: its
result is read purely from the cache map, its only possible effect is spawning
the detached refresh task, and the upstream network call occurs only in that
background task's own effect trace. -/
theorem lookup_never_fetches_on_caller_path (app : CharacterSheetServiceApp)
    (charKey : String) (now : Nat) (k2 : String) :
    Effect.fetchUpstream k2 ∉ (LookupCharacter app charKey now).effects ∧
    (LookupCharacter app charKey now).attrs =
      Option.map CacheEntry.Attributes (alookup app.Cache charKey) ∧
    ((LookupCharacter app charKey now).effects = [] ∨
      (LookupCharacter app charKey now).effects = [Effect.spawnRefresh charKey]) ∧
    Effect.fetchUpstream charKey ∈ fetchTaskEffects charKey := by
  cases h : alookup app.Cache charKey with
  | none => simp [LookupCharacter, h, fetchTaskEffects]
  | some entry =>
    by_cases hcond : entry.UpdatingFlag = false ∧ entry.Expires < now <;>
      simp [LookupCharacter, h, hcond, fetchTaskEffects]

/-- C10: the mapping step of a refresh is total exactly under the
well-formedness precondition: any well-formed response is mapped without
panic, while a response violating the precondition (here: no value-range at
all for one configured attribute) drives the loop into the out-of-bounds
branch, modelled as `none`. -/
theorem buildCharMap_total_iff_wellformed :
    (∀ (attrs : List AttributeRow) (batchResp : BatchResponse),
      respWellFormed attrs batchResp = true → (buildCharMap attrs batchResp).isSome) ∧
    buildCharMap [⟨"hp", "A1"⟩] ⟨[]⟩ = none ∧
    respWellFormed [⟨"hp", "A1"⟩] ⟨[]⟩ = false ∧
    buildCharMap [⟨"hp", "A1"⟩] ⟨[⟨[[]]⟩]⟩ = none ∧
    respWellFormed [⟨"hp", "A1"⟩] ⟨[⟨[[]]⟩]⟩ = false := by
  refine ⟨?_, rfl, rfl, rfl, rfl⟩
  intro attrs batchResp hwf
  rw [respWellFormed, Bool.and_eq_true, decide_eq_true_iff, List.all_eq_true] at hwf
  exact mapRangesToNames_isSome attrs batchResp.ValueRanges [] hwf.1 hwf.2

/-- Witness for `buildCharMap_total_iff_wellformed`: a well-formed one-range
response maps successfully. -/
theorem buildCharMap_total_iff_wellformed_witness :
    respWellFormed [⟨"hp", "A1"⟩] ⟨[⟨[["42"]]⟩]⟩ = true ∧
    (buildCharMap [⟨"hp", "A1"⟩] ⟨[⟨[["42"]]⟩]⟩).isSome = true :=
  ⟨by decide,
    buildCharMap_total_iff_wellformed.1 [⟨"hp", "A1"⟩] ⟨[⟨[["42"]]⟩]⟩ (by decide)⟩

end SheetService
